import Mathlib

/-!
# Verification of the sopel-github subscription-management commands

Shallow embedding of `sopel_modules/github/github.py`, centred on the two
subscription-management chat commands:

* `configure_repo_messages` (the `gh-hook` command), which inserts or updates a
  row of the `gh_hooks` table, and
* `configure_repo_colors` (the `gh-hook-color` command), which overwrites the six
  colour columns of an existing row.

Strings (channel names, repository names, command arguments) are modelled as
`List Char`; the Python `str.lower()` method is modelled character-wise on the ASCII
range, which covers every character the claims mention.  The `gh_hooks` SQL
table is modelled as a list of rows: `SELECT ... fetchone()` is `List.find?`,
`INSERT` appends, and `UPDATE ... WHERE` maps over the list updating every row
matched by the `WHERE` clause.

The webhook HTTP listener lives in `webhook.py`, which is not part of the
sources under verification; the signature-validation pipeline is modelled from
the specification where needed (clearly marked below).
-/

namespace SopelGithub

/-- Strings of the Python source, modelled as lists of characters. -/
abbrev Str := List Char

/-- The Python `str.lower()` method on one character (ASCII range: `'A'..'Z'` map to
`'a'..'z'`, everything else is unchanged; the repository only ever lowercases
IRC channel names and GitHub repository slugs, which are ASCII). -/
def lowerChar (c : Char) : Char :=
  if 65 ≤ c.toNat ∧ c.toNat ≤ 90 then Char.ofNat (c.toNat + 32) else c

/-- The Python `str.lower()` method: character-wise lowering. -/
def lower (s : Str) : Str := s.map lowerChar

/-- One row of the `gh_hooks` SQLite table: key columns `channel` and
`repo_name`, the `enabled` flag, and the six colour columns in the order they
appear in the `UPDATE` statement of `configure_repo_colors`. -/
structure Row where
  channel : Str
  repo_name : Str
  enabled : Bool
  repo_color : Int
  name_color : Int
  branch_color : Int
  tag_color : Int
  hash_color : Int
  url_color : Int
deriving DecidableEq, Repr

/-- The `gh_hooks` table. -/
abbrev DB := List Row

/-- The `WHERE channel = ? AND repo_name = ?` clause. -/
def keyMatches (ch repo : Str) (r : Row) : Bool :=
  r.channel == ch && r.repo_name == repo

/-- SQL `SELECT * FROM gh_hooks WHERE channel = ? AND repo_name = ?` followed by
`fetchone()`: the first matching row, if any. -/
def selectRow (db : DB) (ch repo : Str) : Option Row :=
  db.find? (keyMatches ch repo)

/-- Modelled from the spec: the table schema lives in the webhook module (not
among the sources under verification); it supplies a built-in default colour
scheme for rows inserted by `gh-hook`, which names only the key columns and
`enabled`.  Order: repo, name, branch, tag, hash, url.  The exact values are
irrelevant to every claim. -/
def defaultColors : Int × Int × Int × Int × Int × Int := (13, 15, 6, 6, 14, 2)

/-- SQL `INSERT INTO gh_hooks (channel, repo_name, enabled) VALUES (?, ?, ?)`:
a fresh row with the default colours of the schema, appended to the table. -/
def insertRow (db : DB) (ch repo : Str) (enabled : Bool) : DB :=
  db ++ [{ channel := ch, repo_name := repo, enabled := enabled,
           repo_color := defaultColors.1, name_color := defaultColors.2.1,
           branch_color := defaultColors.2.2.1, tag_color := defaultColors.2.2.2.1,
           hash_color := defaultColors.2.2.2.2.1, url_color := defaultColors.2.2.2.2.2 }]

/-- SQL `UPDATE gh_hooks SET enabled = ? WHERE channel = ? AND repo_name = ?`. -/
def updateEnabled (db : DB) (ch repo : Str) (enabled : Bool) : DB :=
  db.map (fun r => if keyMatches ch repo r then { r with enabled := enabled } else r)

/-- SQL `UPDATE gh_hooks SET repo_color = ?, name_color = ?, branch_color = ?,
tag_color = ?, hash_color = ?, url_color = ? WHERE channel = ? AND repo_name = ?`,
with the six parameters bound positionally from `colors`. -/
def setColorsRow (cs : List Int) (r : Row) : Row :=
  match cs with
  | [a, b, c, d, e, f] =>
      { r with repo_color := a, name_color := b, branch_color := c,
               tag_color := d, hash_color := e, url_color := f }
  | _ => r

/-- The colour `UPDATE` applied to the table. -/
def updateColors (db : DB) (ch repo : Str) (cs : List Int) : DB :=
  db.map (fun r => if keyMatches ch repo r then setColorsRow cs r else r)

/-- The messages the two commands can `bot.say`, abstracted to tags (the claims
only distinguish which reply was produced, not its exact wording). -/
inductive Msg
  /-- Reply: you must be a channel operator to use this command. -/
  | privilegeError
  /-- Reply: the docstring of the command, shown when no arguments are given. -/
  | usage
  /-- Reply: invalid repo formatting, see help gh-hook for an example. -/
  | repoFormatError
  /-- Reply: successfully enabled listening for the repo events in the channel. -/
  | linkedNew
  /-- Reply: successfully enabled or disabled the subscription to the repo events. -/
  | updatedSub (enabled : Bool)
  /-- Reply: please allow me to create my webhook by authorizing via this link. -/
  | authLink
  /-- Reply: once that webhook is successfully created, I will post a message in here. -/
  | authInfo
  /-- Reply: you must provide exactly 6 colors that are integers and are space separated. -/
  | needSixIntegerColors
  /-- Reply: you must provide exactly 6 colors. -/
  | needSixColors
  /-- Reply: please use gh-hook enable before attempting to configure colors. -/
  | notSubscribed
  /-- The example line showing the freshly configured colours. -/
  | colorExample
deriving DecidableEq, Repr

/-- Constant `sopel.module.OP`, the channel-operator privilege level. -/
def OP : Nat := 4

/-- The caller-dependent inputs of a `gh-hook` invocation.  `privLevel` is
`bot.channels[trigger.sender].privileges.get(trigger.nick, 0)` and `admin` is
`trigger.admin`.  `args` is `none` when `trigger.group(2)` is empty; otherwise
it carries `trigger.group(3)` (the repository argument, always a non-empty
token when `group(2)` is non-empty) and `trigger.group(4)` (the optional
enable/disable argument). -/
structure HookTrigger where
  sender : Str
  nick : Str
  privLevel : Nat
  admin : Bool
  args : Option (Str × Option Str)

/-- Line 482 of github.py:
`enabled = True if not trigger.group(4) or trigger.group(4).lower() == "enable" else False` (single quotes of the source rendered as double quotes).
(`not g` is true in Python when `g` is `None` or the empty string.) -/
def enabledOf (g4 : Option Str) : Bool :=
  match g4 with
  | none => true
  | some s => s == [] || lower s == "enable".data

/-- The `gh-hook` command (`configure_repo_messages`, github.py lines 461-507):
privilege check, usage reply, lowercasing of channel and repository, repository
format check, then insert-or-update of the `enabled` flag.  Returns the replies
said and the resulting table. -/
def configure_repo_messages (db : DB) (t : HookTrigger) : List Msg × DB :=
  if ¬ OP ≤ t.privLevel ∧ t.admin = false then ([.privilegeError], db)
  else
    match t.args with
    | none => ([.usage], db)
    | some (repoArg, g4) =>
      let channel := lower t.sender
      let repo_name := lower repoArg
      if ¬ '/' ∈ repo_name ∨ "http://".data <:+: repo_name ∨ "https://".data <:+: repo_name then
        ([.repoFormatError], db)
      else
        let enabled := enabledOf g4
        match selectRow db channel repo_name with
        | none =>
            ([.linkedNew, .authLink, .authInfo], insertRow db channel repo_name enabled)
        | some _ =>
            (if enabled then [.updatedSub enabled, .authLink, .authInfo]
             else [.updatedSub enabled],
             updateEnabled db channel repo_name enabled)

/-- One decimal digit, as accepted by the Python `int()` function. -/
def digitVal (c : Char) : Option Nat :=
  if 48 ≤ c.toNat ∧ c.toNat ≤ 57 then some (c.toNat - 48) else none

/-- A non-empty run of decimal digits, most significant first. -/
def parseDigits : Str → Option Nat
  | [] => none
  | [c] => digitVal c
  | c :: rest => do
      let d ← digitVal c
      let n ← parseDigits rest
      pure (d * (10 ^ rest.length) + n)

/-- The Python `int(token)` conversion on a whitespace-free token: an optional sign followed
by at least one decimal digit.  (Python additionally accepts underscore digit
grouping and non-ASCII digits; no claim depends on those inputs.) -/
def parseInt (s : Str) : Option Int :=
  match s with
  | '-' :: rest => (parseDigits rest).map (fun n => -(n : Int))
  | '+' :: rest => (parseDigits rest).map (fun n => (n : Int))
  | _ => (parseDigits s).map (fun n => (n : Int))

/-- Line 528 of github.py: `[int(c) % 16 for c in ...split()]` — every token
parsed as an integer and reduced modulo 16, or `none` when any token fails
`int()` (the bare `except:` branch). -/
def parseColors : List Str → Option (List Int)
  | [] => some []
  | t :: ts => do
      let n ← parseInt t
      let rest ← parseColors ts
      pure ((n % 16) :: rest)

/-- The caller-dependent inputs of a `gh-hook-color` invocation.  `args` is
`none` when `trigger.group(2)` is empty; otherwise it carries
`trigger.group(3)` (the repository argument) and the remaining whitespace-split
tokens of `trigger.group(2)`.  (The source computes these as
`trigger.group(2).replace(trigger.group(3), "", 1).split()` (source quotes rendered double); since
`trigger.group(3)` is the first token of `trigger.group(2)`, which starts at
index 0, the `replace` removes exactly that leading token.) -/
structure ColorTrigger where
  sender : Str
  nick : Str
  privLevel : Nat
  admin : Bool
  args : Option (Str × List Str)

/-- The `gh-hook-color` command (`configure_repo_colors`, github.py lines
510-557): privilege check, usage reply, lowercasing, colour parsing (with its
two distinct error replies), subscription check, then the six-column colour
`UPDATE`. -/
def configure_repo_colors (db : DB) (t : ColorTrigger) : List Msg × DB :=
  if ¬ OP ≤ t.privLevel ∧ t.admin = false then ([.privilegeError], db)
  else
    match t.args with
    | none => ([.usage], db)
    | some (repoArg, rest) =>
      let channel := lower t.sender
      let repo_name := lower repoArg
      match parseColors rest with
      | none => ([.needSixIntegerColors], db)
      | some colors =>
        if colors.length ≠ 6 then ([.needSixColors], db)
        else
          match selectRow db channel repo_name with
          | none => ([.notSubscribed], db)
          | some _ => ([.colorExample], updateColors db channel repo_name colors)

/-! ## The webhook validation pipeline, modelled from the spec

The HTTP listener, signature validator and router live in `webhook.py`, which
is not among the sources under verification; github.py only registers it via
`setup_webhook`/`shutdown_webhook`.  The definitions below are modelled from
the specification of the Signature & Payload Validator and the Event
Classifier & Router. -/

/-- Modelled from the spec: one inbound webhook HTTP request — the declared
event-type header, the raw signature header and the raw body bytes. -/
structure WebhookRequest where
  eventType : Str
  signature : Str
  body : Str

/-- Modelled from the spec: signature verification.  When a signing secret is
configured, the expected signature is the HMAC of the raw body under the
secret (the HMAC primitive itself is external, passed in as `hmacFn`) and the
request passes only if the presented signature equals it; with no secret
configured every request passes. -/
def verifySignature (hmacFn : Str → Str → Str) (secret : Option Str) (req : WebhookRequest) :
    Bool :=
  match secret with
  | none => true
  | some s => req.signature == hmacFn s req.body

/-- Modelled from the spec: `list_enabled_for_repo` — the channels of all
enabled subscription rows for the repository, matched case-insensitively
(stored keys are lowercase). -/
def list_enabled_for_repo (db : DB) (repo : Str) : List Str :=
  (db.filter (fun r => r.enabled && r.repo_name == lower repo)).map Row.channel

/-- Modelled from the spec: the request pipeline — verify the signature
(mismatch: reject with a 401 and no deliveries), parse the body and extract
`repository.full_name` (failure: 400, no deliveries; `extractRepo` stands for
JSON parsing plus field extraction), then render one message per subscribed
channel (`render` stands for the event renderers) and answer 200. -/
def handle_webhook (hmacFn : Str → Str → Str) (extractRepo : Str → Option Str)
    (render : Str → Str → Str) (secret : Option Str) (db : DB) (req : WebhookRequest) :
    Nat × List (Str × Str) :=
  if ¬ verifySignature hmacFn secret req then (401, [])
  else
    match extractRepo req.body with
    | none => (400, [])
    | some repo =>
        (200, (list_enabled_for_repo db repo).map (fun ch => (ch, render req.eventType ch)))

/-! ## The store invariant of claim C6 -/

/-- A string already in lowercase form. -/
def Lowered (s : Str) : Prop := lower s = s

/-- The subscription-store invariant: the key columns of every row are lowercase,
and no two rows share the (channel, repo_name) key. -/
def Inv (db : DB) : Prop :=
  (∀ r ∈ db, Lowered r.channel ∧ Lowered r.repo_name) ∧
  db.Pairwise (fun r1 r2 => ¬ (r1.channel = r2.channel ∧ r1.repo_name = r2.repo_name))

/-! ## Concrete sample inputs for witnesses and counterexamples -/

/-- A subscription row for `#chan` / `a/b` with the default colours. -/
def sampleRow : Row :=
  { channel := "#chan".data, repo_name := "a/b".data, enabled := true,
    repo_color := 13, name_color := 15, branch_color := 6, tag_color := 6,
    hash_color := 14, url_color := 2 }

/-- A one-row table holding `sampleRow`. -/
def sampleDB : DB := [sampleRow]

/-- A `gh-hook-color` invocation by an operator passing colour 16 first:
`.gh-hook-color A/B 16 1 2 3 4 5` in channel `#Chan`. -/
def colorTrigger16 : ColorTrigger :=
  { sender := "#Chan".data, nick := "op".data, privLevel := 4, admin := false,
    args := some ("A/B".data,
      ["16".data, "1".data, "2".data, "3".data, "4".data, "5".data]) }

/-- The in-range colour tokens `1 2 3 4 5 6`. -/
def goodTokens : List Str :=
  ["1".data, "2".data, "3".data, "4".data, "5".data, "6".data]

/-- A `gh-hook` invocation by an operator: `.gh-hook A/B` in channel `#Chan`. -/
def hookTrigger1 : HookTrigger :=
  { sender := "#Chan".data, nick := "op".data, privLevel := 4, admin := false,
    args := some ("A/B".data, none) }

/-- A `gh-hook` invocation by an operator: `.gh-hook A/B disable`. -/
def hookTriggerDisable : HookTrigger :=
  { sender := "#Chan".data, nick := "op".data, privLevel := 4, admin := false,
    args := some ("A/B".data, some "disable".data) }

/-- A `gh-hook` invocation by an operator with a slash-free repository
argument: `.gh-hook noslash`. -/
def hookTriggerBadRepo : HookTrigger :=
  { sender := "#Chan".data, nick := "op".data, privLevel := 4, admin := false,
    args := some ("noslash".data, none) }

/-- A `gh-hook` invocation by a caller with no privileges at all. -/
def hookTriggerNoPriv : HookTrigger :=
  { sender := "#Chan".data, nick := "user".data, privLevel := 0, admin := false,
    args := some ("A/B".data, none) }

/-- A well-formed `gh-hook-color` invocation: `.gh-hook-color A/B 1 2 3 4 5 6`. -/
def colorTriggerGood : ColorTrigger :=
  { sender := "#Chan".data, nick := "op".data, privLevel := 4, admin := false,
    args := some ("A/B".data, goodTokens) }

/-- A `gh-hook-color` invocation with a single non-integer colour token:
`.gh-hook-color A/B x`. -/
def colorTriggerBadArgs : ColorTrigger :=
  { sender := "#Chan".data, nick := "op".data, privLevel := 4, admin := false,
    args := some ("A/B".data, ["x".data]) }

/-- A `gh-hook-color` invocation by a caller with no privileges at all. -/
def colorTriggerNoPriv : ColorTrigger :=
  { sender := "#Chan".data, nick := "user".data, privLevel := 0, admin := false,
    args := some ("A/B".data, goodTokens) }

/-- A concrete webhook request whose signature header will not match. -/
def sampleRequest : WebhookRequest :=
  { eventType := "push".data, signature := "bad".data, body := "payload".data }

/-! ## Lemmas about lowercasing -/

theorem toNat_ofNat_upper (n : Nat) (h1 : 65 ≤ n) (h2 : n ≤ 90) :
    (Char.ofNat (n + 32)).toNat = n + 32 := by
  interval_cases n <;> decide

theorem lowerChar_eq_slash {c : Char} (h : lowerChar c = '/') : c = '/' := by
  unfold lowerChar at h
  split at h
  · next hu =>
      have ht := congrArg Char.toNat h
      rw [toNat_ofNat_upper c.toNat hu.1 hu.2] at ht
      have h47 : ('/' : Char).toNat = 47 := by decide
      rw [h47] at ht
      omega
  · exact h

theorem lowerChar_idem (c : Char) : lowerChar (lowerChar c) = lowerChar c := by
  unfold lowerChar
  by_cases h : 65 ≤ c.toNat ∧ c.toNat ≤ 90
  · rw [if_pos h]
    have ht := toNat_ofNat_upper c.toNat h.1 h.2
    rw [if_neg]
    rw [ht]
    omega
  · rw [if_neg h, if_neg h]

theorem lower_lower (s : Str) : lower (lower s) = lower s := by
  unfold lower
  rw [List.map_map]
  exact List.map_congr_left (fun c _ => lowerChar_idem c)

theorem slash_mem_of_mem_lower {s : Str} (h : '/' ∈ lower s) : '/' ∈ s := by
  unfold lower at h
  rcases List.mem_map.mp h with ⟨c, hc, hlc⟩
  rwa [lowerChar_eq_slash hlc] at hc

theorem lower_substring {t s : Str} (h : t <:+: s) (ht : lower t = t) : t <:+: lower s := by
  have hm := h.map lowerChar
  rwa [show List.map lowerChar t = lower t from rfl, ht] at hm

/-! ## Lemmas about the table operations -/

theorem keyMatches_setEnabled (ch rp : Str) (r : Row) (e : Bool) :
    keyMatches ch rp { r with enabled := e } = keyMatches ch rp r := rfl

theorem keyMatches_setColorsRow (ch rp : Str) (cs : List Int) (r : Row) :
    keyMatches ch rp (setColorsRow cs r) = keyMatches ch rp r := by
  unfold setColorsRow
  split <;> rfl

theorem setColorsRow_channel (cs : List Int) (r : Row) :
    (setColorsRow cs r).channel = r.channel := by
  unfold setColorsRow
  split <;> rfl

theorem setColorsRow_repo_name (cs : List Int) (r : Row) :
    (setColorsRow cs r).repo_name = r.repo_name := by
  unfold setColorsRow
  split <;> rfl

theorem keyMatches_self (ch rp : Str) (r : Row) (hc : r.channel = ch) (hr : r.repo_name = rp) :
    keyMatches ch rp r = true := by
  unfold keyMatches
  rw [hc, hr]
  simp

theorem selectRow_insert_absent (db : DB) (ch rp : Str) (e : Bool)
    (h : selectRow db ch rp = none) :
    selectRow (insertRow db ch rp e) ch rp =
      some { channel := ch, repo_name := rp, enabled := e,
             repo_color := defaultColors.1, name_color := defaultColors.2.1,
             branch_color := defaultColors.2.2.1, tag_color := defaultColors.2.2.2.1,
             hash_color := defaultColors.2.2.2.2.1, url_color := defaultColors.2.2.2.2.2 } := by
  unfold selectRow at h ⊢
  unfold insertRow
  rw [List.find?_append, h]
  simp [keyMatches]

theorem selectRow_updateEnabled (db : DB) (ch rp : Str) (e : Bool) :
    selectRow (updateEnabled db ch rp e) ch rp
      = (selectRow db ch rp).map (fun r => { r with enabled := e }) := by
  unfold selectRow updateEnabled
  rw [List.find?_map]
  have hp : keyMatches ch rp ∘ (fun r => if keyMatches ch rp r then { r with enabled := e } else r)
      = keyMatches ch rp := by
    funext r
    by_cases h : keyMatches ch rp r = true
    · simp [Function.comp_apply, if_pos h, keyMatches_setEnabled]
    · simp [Function.comp_apply, if_neg h]
  rw [hp]
  cases hf : db.find? (keyMatches ch rp) with
  | none => rfl
  | some r =>
      have hr : keyMatches ch rp r = true := List.find?_some hf
      simp [hr]

theorem selectRow_updateColors (db : DB) (ch rp : Str) (cs : List Int) :
    selectRow (updateColors db ch rp cs) ch rp
      = (selectRow db ch rp).map (setColorsRow cs) := by
  unfold selectRow updateColors
  rw [List.find?_map]
  have hp : keyMatches ch rp ∘ (fun r => if keyMatches ch rp r then setColorsRow cs r else r)
      = keyMatches ch rp := by
    funext r
    by_cases h : keyMatches ch rp r = true
    · simp [Function.comp_apply, if_pos h, keyMatches_setColorsRow]
    · simp [Function.comp_apply, if_neg h]
  rw [hp]
  cases hf : db.find? (keyMatches ch rp) with
  | none => rfl
  | some r =>
      have hr : keyMatches ch rp r = true := List.find?_some hf
      simp [hr]

/-! ## Lemmas about colour parsing -/

theorem parseColors_bounds :
    ∀ {toks : List Str} {cs : List Int}, parseColors toks = some cs → ∀ x ∈ cs, 0 ≤ x ∧ x < 16 := by
  intro toks
  induction toks with
  | nil =>
      intro cs h x hx
      unfold parseColors at h
      cases h
      cases hx
  | cons t ts ih =>
      intro cs h x hx
      unfold parseColors at h
      cases hn : parseInt t with
      | none => rw [hn] at h; cases h
      | some n =>
          rw [hn] at h
          cases hr : parseColors ts with
          | none => rw [hr] at h; cases h
          | some rest =>
              rw [hr] at h
              cases h
              rcases List.mem_cons.mp hx with h | h
              · subst h
                exact ⟨Int.emod_nonneg n (by norm_num), Int.emod_lt_of_pos n (by norm_num)⟩
              · exact ih hr x h

theorem parseColors_eq_mapM :
    ∀ {toks : List Str} {ns : List Int}, toks.mapM parseInt = some ns →
      parseColors toks = some (ns.map (· % 16)) := by
  intro toks
  induction toks with
  | nil =>
      intro ns h
      simp only [List.mapM_nil, pure, Option.some.injEq] at h
      subst h
      rfl
  | cons t ts ih =>
      intro ns h
      rw [List.mapM_cons] at h
      cases hn : parseInt t with
      | none => rw [hn] at h; cases h
      | some n =>
          rw [hn] at h
          cases hr : ts.mapM parseInt with
          | none => rw [hr] at h; cases h
          | some rest =>
              rw [hr] at h
              simp at h
              subst h
              unfold parseColors
              rw [hn, ih hr]
              rfl

/-! ## Branch-evaluation lemmas for the two commands -/

theorem privGate_messages (t : HookTrigger) (hpriv : OP ≤ t.privLevel ∨ t.admin = true) :
    ¬ (¬ OP ≤ t.privLevel ∧ t.admin = false) := by
  rintro ⟨ha, hb⟩
  rcases hpriv with h | h
  · exact ha h
  · rw [h] at hb; cases hb

theorem privGate_colors (t : ColorTrigger) (hpriv : OP ≤ t.privLevel ∨ t.admin = true) :
    ¬ (¬ OP ≤ t.privLevel ∧ t.admin = false) := by
  rintro ⟨ha, hb⟩
  rcases hpriv with h | h
  · exact ha h
  · rw [h] at hb; cases hb

theorem crm_badFormat (db : DB) (t : HookTrigger) (repoArg : Str) (g4 : Option Str)
    (hpriv : OP ≤ t.privLevel ∨ t.admin = true)
    (hargs : t.args = some (repoArg, g4))
    (hbad : ¬ '/' ∈ lower repoArg ∨ "http://".data <:+: lower repoArg
            ∨ "https://".data <:+: lower repoArg) :
    configure_repo_messages db t = ([Msg.repoFormatError], db) := by
  unfold configure_repo_messages
  rw [if_neg (privGate_messages t hpriv)]
  split
  · next heq => rw [hargs] at heq; cases heq
  · next rp g4x heq =>
      rw [hargs] at heq
      injection heq with heq2
      injection heq2 with hA hB
      subst hA
      subst hB
      simp only []
      rw [if_pos hbad]

theorem crm_insert (db : DB) (t : HookTrigger) (repoArg : Str) (g4 : Option Str)
    (hpriv : OP ≤ t.privLevel ∨ t.admin = true)
    (hargs : t.args = some (repoArg, g4))
    (hfmt : '/' ∈ lower repoArg ∧ ¬ "http://".data <:+: lower repoArg
            ∧ ¬ "https://".data <:+: lower repoArg)
    (hnone : selectRow db (lower t.sender) (lower repoArg) = none) :
    configure_repo_messages db t =
      ([Msg.linkedNew, Msg.authLink, Msg.authInfo],
       insertRow db (lower t.sender) (lower repoArg) (enabledOf g4)) := by
  unfold configure_repo_messages
  rw [if_neg (privGate_messages t hpriv)]
  split
  · next heq => rw [hargs] at heq; cases heq
  · next rp g4x heq =>
      rw [hargs] at heq
      injection heq with heq2
      injection heq2 with hA hB
      subst hA
      subst hB
      simp only []
      rw [if_neg]
      · rw [hnone]
      · push_neg
        exact hfmt

theorem crm_update (db : DB) (t : HookTrigger) (repoArg : Str) (g4 : Option Str) (r0 : Row)
    (hpriv : OP ≤ t.privLevel ∨ t.admin = true)
    (hargs : t.args = some (repoArg, g4))
    (hfmt : '/' ∈ lower repoArg ∧ ¬ "http://".data <:+: lower repoArg
            ∧ ¬ "https://".data <:+: lower repoArg)
    (hsome : selectRow db (lower t.sender) (lower repoArg) = some r0) :
    configure_repo_messages db t =
      ((if enabledOf g4 then [Msg.updatedSub (enabledOf g4), Msg.authLink, Msg.authInfo]
        else [Msg.updatedSub (enabledOf g4)]),
       updateEnabled db (lower t.sender) (lower repoArg) (enabledOf g4)) := by
  unfold configure_repo_messages
  rw [if_neg (privGate_messages t hpriv)]
  split
  · next heq => rw [hargs] at heq; cases heq
  · next rp g4x heq =>
      rw [hargs] at heq
      injection heq with heq2
      injection heq2 with hA hB
      subst hA
      subst hB
      simp only []
      rw [if_neg]
      · rw [hsome]
      · push_neg
        exact hfmt

theorem crc_parseFail (db : DB) (t : ColorTrigger) (repoArg : Str) (rest : List Str)
    (hpriv : OP ≤ t.privLevel ∨ t.admin = true)
    (hargs : t.args = some (repoArg, rest))
    (hfail : parseColors rest = none) :
    configure_repo_colors db t = ([Msg.needSixIntegerColors], db) := by
  unfold configure_repo_colors
  rw [if_neg (privGate_colors t hpriv)]
  split
  · next heq => rw [hargs] at heq; cases heq
  · next rp rs heq =>
      rw [hargs] at heq
      injection heq with heq2
      injection heq2 with hA hB
      subst hA
      subst hB
      simp only []
      rw [hfail]

theorem crc_lengthFail (db : DB) (t : ColorTrigger) (repoArg : Str) (rest : List Str)
    (cs : List Int)
    (hpriv : OP ≤ t.privLevel ∨ t.admin = true)
    (hargs : t.args = some (repoArg, rest))
    (hcs : parseColors rest = some cs)
    (hlen : cs.length ≠ 6) :
    configure_repo_colors db t = ([Msg.needSixColors], db) := by
  unfold configure_repo_colors
  rw [if_neg (privGate_colors t hpriv)]
  split
  · next heq => rw [hargs] at heq; cases heq
  · next rp rs heq =>
      rw [hargs] at heq
      injection heq with heq2
      injection heq2 with hA hB
      subst hA
      subst hB
      simp only []
      rw [hcs]
      simp only []
      rw [if_pos hlen]

theorem crc_notSubscribed (db : DB) (t : ColorTrigger) (repoArg : Str) (rest : List Str)
    (cs : List Int)
    (hpriv : OP ≤ t.privLevel ∨ t.admin = true)
    (hargs : t.args = some (repoArg, rest))
    (hcs : parseColors rest = some cs)
    (hlen : cs.length = 6)
    (hnone : selectRow db (lower t.sender) (lower repoArg) = none) :
    configure_repo_colors db t = ([Msg.notSubscribed], db) := by
  unfold configure_repo_colors
  rw [if_neg (privGate_colors t hpriv)]
  split
  · next heq => rw [hargs] at heq; cases heq
  · next rp rs heq =>
      rw [hargs] at heq
      injection heq with heq2
      injection heq2 with hA hB
      subst hA
      subst hB
      simp only []
      rw [hcs]
      simp only []
      rw [if_neg (by rw [hlen]; omega)]
      rw [hnone]

theorem crc_success (db : DB) (t : ColorTrigger) (repoArg : Str) (rest : List Str)
    (cs : List Int) (r0 : Row)
    (hpriv : OP ≤ t.privLevel ∨ t.admin = true)
    (hargs : t.args = some (repoArg, rest))
    (hcs : parseColors rest = some cs)
    (hlen : cs.length = 6)
    (hsome : selectRow db (lower t.sender) (lower repoArg) = some r0) :
    configure_repo_colors db t =
      ([Msg.colorExample], updateColors db (lower t.sender) (lower repoArg) cs) := by
  unfold configure_repo_colors
  rw [if_neg (privGate_colors t hpriv)]
  split
  · next heq => rw [hargs] at heq; cases heq
  · next rp rs heq =>
      rw [hargs] at heq
      injection heq with heq2
      injection heq2 with hA hB
      subst hA
      subst hB
      simp only []
      rw [hcs]
      simp only []
      rw [if_neg (by rw [hlen]; omega)]
      rw [hsome]

/-! ## Invariant preservation -/

theorem Inv_insert (db : DB) (ch rp : Str) (e : Bool)
    (h : Inv db) (hch : Lowered ch) (hrp : Lowered rp)
    (habs : selectRow db ch rp = none) :
    Inv (insertRow db ch rp e) := by
  obtain ⟨hlow, huniq⟩ := h
  constructor
  · intro r hr
    unfold insertRow at hr
    rcases List.mem_append.mp hr with h | h
    · exact hlow r h
    · rw [List.mem_singleton.mp h]
      exact ⟨hch, hrp⟩
  · unfold insertRow
    rw [List.pairwise_append]
    refine ⟨huniq, List.pairwise_singleton .., ?_⟩
    intro r1 h1 r2 h2
    rw [List.mem_singleton.mp h2]
    rintro ⟨hc, hr⟩
    have hnot := List.find?_eq_none.mp habs r1 h1
    exact hnot (keyMatches_self ch rp r1 hc hr)

theorem Inv_map_keys (db : DB) (f : Row → Row)
    (hch : ∀ r, (f r).channel = r.channel) (hrp : ∀ r, (f r).repo_name = r.repo_name)
    (h : Inv db) : Inv (db.map f) := by
  obtain ⟨hlow, huniq⟩ := h
  constructor
  · intro r hr
    rcases List.mem_map.mp hr with ⟨x, hx, hfx⟩
    rw [← hfx, hch, hrp]
    exact hlow x hx
  · rw [List.pairwise_map]
    refine huniq.imp ?_
    intro a b hab
    rintro ⟨h1, h2⟩
    rw [hch, hch] at h1
    rw [hrp, hrp] at h2
    exact hab ⟨h1, h2⟩

theorem Inv_updateEnabled (db : DB) (ch rp : Str) (e : Bool) (h : Inv db) :
    Inv (updateEnabled db ch rp e) := by
  refine Inv_map_keys db _ ?_ ?_ h
  · intro r
    by_cases hk : keyMatches ch rp r = true
    · rw [if_pos hk]
    · rw [if_neg hk]
  · intro r
    by_cases hk : keyMatches ch rp r = true
    · rw [if_pos hk]
    · rw [if_neg hk]

theorem Inv_updateColors (db : DB) (ch rp : Str) (cs : List Int) (h : Inv db) :
    Inv (updateColors db ch rp cs) := by
  refine Inv_map_keys db _ ?_ ?_ h
  · intro r
    by_cases hk : keyMatches ch rp r = true
    · rw [if_pos hk]
      exact setColorsRow_channel cs r
    · rw [if_neg hk]
  · intro r
    by_cases hk : keyMatches ch rp r = true
    · rw [if_pos hk]
      exact setColorsRow_repo_name cs r
    · rw [if_neg hk]

theorem Inv_configure_repo_messages (db : DB) (t : HookTrigger) (h : Inv db) :
    Inv (configure_repo_messages db t).2 := by
  unfold configure_repo_messages
  split
  · exact h
  · split
    · exact h
    · next repoArg g4 heq =>
        simp only []
        split
        · exact h
        · split
          · next hnone =>
              exact Inv_insert db _ _ _ h (lower_lower t.sender) (lower_lower repoArg) hnone
          · next r0 hsome =>
              exact Inv_updateEnabled db _ _ _ h

theorem Inv_configure_repo_colors (db : DB) (t : ColorTrigger) (h : Inv db) :
    Inv (configure_repo_colors db t).2 := by
  unfold configure_repo_colors
  split
  · exact h
  · split
    · exact h
    · next repoArg rest heq =>
        simp only []
        split
        · exact h
        · next cs hcs =>
            split
            · exact h
            · split
              · exact h
              · exact Inv_updateColors db _ _ _ h

/-! ## Shared helper lemmas for the claims -/

theorem setColorsRow_fields (cs : List Int) (r : Row) (h : cs.length = 6) :
    [(setColorsRow cs r).repo_color, (setColorsRow cs r).name_color,
     (setColorsRow cs r).branch_color, (setColorsRow cs r).tag_color,
     (setColorsRow cs r).hash_color, (setColorsRow cs r).url_color] = cs := by
  rcases cs with _ | ⟨a, _ | ⟨b, _ | ⟨c, _ | ⟨d, _ | ⟨e, _ | ⟨f, _ | ⟨g, tl⟩⟩⟩⟩⟩⟩⟩ <;>
    first
      | rfl
      | (simp only [List.length] at h; omega)

/-- After a `gh-hook` invocation that reaches the store, the row read back for
the lowercased key carries the `enabled` flag the invocation computed. -/
theorem stored_enabled_eq (db : DB) (t : HookTrigger) (repoArg : Str) (g4 : Option Str)
    (hpriv : OP ≤ t.privLevel ∨ t.admin = true)
    (hargs : t.args = some (repoArg, g4))
    (hfmt : '/' ∈ lower repoArg ∧ ¬ "http://".data <:+: lower repoArg
            ∧ ¬ "https://".data <:+: lower repoArg) :
    Row.enabled <$>
        selectRow (configure_repo_messages db t).2 (lower t.sender) (lower repoArg)
      = some (enabledOf g4) := by
  cases hsel : selectRow db (lower t.sender) (lower repoArg) with
  | none =>
      rw [crm_insert db t repoArg g4 hpriv hargs hfmt hsel]
      show Row.enabled <$>
          selectRow (insertRow db (lower t.sender) (lower repoArg) (enabledOf g4))
            (lower t.sender) (lower repoArg) = some (enabledOf g4)
      rw [selectRow_insert_absent db _ _ _ hsel]
      rfl
  | some r0 =>
      rw [crm_update db t repoArg g4 r0 hpriv hargs hfmt hsel]
      show Row.enabled <$>
          selectRow (updateEnabled db (lower t.sender) (lower repoArg) (enabledOf g4))
            (lower t.sender) (lower repoArg) = some (enabledOf g4)
      rw [selectRow_updateEnabled, hsel]
      rfl

/-- After a successful `gh-hook-color` invocation, the row read back for the
lowercased key carries exactly the parsed colour list in positional order. -/
theorem stored_colors_eq (db : DB) (t : ColorTrigger) (repoArg : Str) (rest : List Str)
    (cs : List Int) (r0 : Row)
    (hpriv : OP ≤ t.privLevel ∨ t.admin = true)
    (hargs : t.args = some (repoArg, rest))
    (hcs : parseColors rest = some cs)
    (hlen : cs.length = 6)
    (hsome : selectRow db (lower t.sender) (lower repoArg) = some r0) :
    (fun r => [r.repo_color, r.name_color, r.branch_color, r.tag_color,
               r.hash_color, r.url_color]) <$>
        selectRow (configure_repo_colors db t).2 (lower t.sender) (lower repoArg)
      = some cs := by
  rw [crc_success db t repoArg rest cs r0 hpriv hargs hcs hlen hsome]
  show (fun r => [r.repo_color, r.name_color, r.branch_color, r.tag_color,
                  r.hash_color, r.url_color]) <$>
      selectRow (updateColors db (lower t.sender) (lower repoArg) cs)
        (lower t.sender) (lower repoArg) = some cs
  rw [selectRow_updateColors, hsome]
  show some [(setColorsRow cs r0).repo_color, (setColorsRow cs r0).name_color,
             (setColorsRow cs r0).branch_color, (setColorsRow cs r0).tag_color,
             (setColorsRow cs r0).hash_color, (setColorsRow cs r0).url_color] = some cs
  rw [setColorsRow_fields cs r0 hlen]

/-! ## The claims -/

/-- C1, amended: for every (channel, repo) pair, running the subscription-link
operation (`gh-hook` upsert) and then reading the row yields an enabled flag
equal to the one computed from the most recent call, and running the
color-customization operation (`gh-hook-color` / set_colors) with six integers
and then reading the row yields those six integers each reduced modulo 16 —
hence exactly the six given colors whenever each already lies in 0..15 — in
the positional order repo_color, name_color, branch_color, tag_color,
hash_color, url_color. -/
theorem C1_upsert_get_setColors_get
    (dbA : DB) (tA : HookTrigger) (repoA : Str) (g4 : Option Str)
    (hA1 : OP ≤ tA.privLevel ∨ tA.admin = true)
    (hA2 : tA.args = some (repoA, g4))
    (hA3 : '/' ∈ lower repoA ∧ ¬ "http://".data <:+: lower repoA
           ∧ ¬ "https://".data <:+: lower repoA)
    (dbB : DB) (tB : ColorTrigger) (repoB : Str) (rest : List Str) (ns : List Int) (r0 : Row)
    (hB1 : OP ≤ tB.privLevel ∨ tB.admin = true)
    (hB2 : tB.args = some (repoB, rest))
    (hB3 : rest.mapM parseInt = some ns)
    (hB4 : ns.length = 6)
    (hB5 : selectRow dbB (lower tB.sender) (lower repoB) = some r0) :
    (Row.enabled <$>
        selectRow (configure_repo_messages dbA tA).2 (lower tA.sender) (lower repoA)
      = some (enabledOf g4))
    ∧ ((fun r => [r.repo_color, r.name_color, r.branch_color, r.tag_color,
                  r.hash_color, r.url_color]) <$>
        selectRow (configure_repo_colors dbB tB).2 (lower tB.sender) (lower repoB)
      = some (ns.map (· % 16))) := by
  constructor
  · exact stored_enabled_eq dbA tA repoA g4 hA1 hA2 hA3
  · have hcs := parseColors_eq_mapM hB3
    have hlen : (ns.map (· % 16)).length = 6 := by rw [List.length_map]; exact hB4
    exact stored_colors_eq dbB tB repoB rest _ r0 hB1 hB2 hcs hlen hB5

/-- C1, counterexample to the claim as stated: in channel `#Chan`, with
`a/b` subscribed, `.gh-hook-color A/B 16 1 2 3 4 5` stores the colours
`[0, 1, 2, 3, 4, 5]` — not the six integers `[16, 1, 2, 3, 4, 5]` that were
passed, because the command reduces every colour modulo 16. -/
theorem C1_counterexample :
    ((fun r => [r.repo_color, r.name_color, r.branch_color, r.tag_color,
                r.hash_color, r.url_color]) <$>
        selectRow (configure_repo_colors sampleDB colorTrigger16).2 "#chan".data "a/b".data
      = some [0, 1, 2, 3, 4, 5])
    ∧ ([0, 1, 2, 3, 4, 5] : List Int) ≠ [16, 1, 2, 3, 4, 5] := by
  constructor
  · decide
  · decide

/-- C1, witness: the amended theorem applied to `.gh-hook A/B` on an empty
table and `.gh-hook-color A/B 1 2 3 4 5 6` on the sample table. -/
theorem C1_upsert_get_setColors_get_witness :
    (Row.enabled <$>
        selectRow (configure_repo_messages [] hookTrigger1).2
          (lower hookTrigger1.sender) (lower "A/B".data)
      = some (enabledOf none))
    ∧ ((fun r => [r.repo_color, r.name_color, r.branch_color, r.tag_color,
                  r.hash_color, r.url_color]) <$>
        selectRow (configure_repo_colors sampleDB colorTriggerGood).2
          (lower colorTriggerGood.sender) (lower "A/B".data)
      = some (([1, 2, 3, 4, 5, 6] : List Int).map (· % 16))) :=
  C1_upsert_get_setColors_get [] hookTrigger1 "A/B".data none (by decide) rfl (by decide)
    sampleDB colorTriggerGood "A/B".data goodTokens [1, 2, 3, 4, 5, 6] sampleRow
    (by decide) rfl (by decide) (by decide) (by decide)

/-- C2: for every (channel, repo) pair with no existing subscription row, a
`gh-hook-color` invocation that reaches the subscription check (privileged
caller, six well-formed integer colours) replies with the not-subscribed
error and leaves the table completely unchanged. -/
theorem C2_setColors_unsubscribed
    (db : DB) (t : ColorTrigger) (repoArg : Str) (rest : List Str) (cs : List Int)
    (hpriv : OP ≤ t.privLevel ∨ t.admin = true)
    (hargs : t.args = some (repoArg, rest))
    (hcs : parseColors rest = some cs)
    (hlen : cs.length = 6)
    (hnone : selectRow db (lower t.sender) (lower repoArg) = none) :
    configure_repo_colors db t = ([Msg.notSubscribed], db) :=
  crc_notSubscribed db t repoArg rest cs hpriv hargs hcs hlen hnone

/-- C2, witness: `.gh-hook-color A/B 1 2 3 4 5 6` on the empty table. -/
theorem C2_setColors_unsubscribed_witness :
    configure_repo_colors [] colorTriggerGood = ([Msg.notSubscribed], []) :=
  C2_setColors_unsubscribed [] colorTriggerGood "A/B".data goodTokens [1, 2, 3, 4, 5, 6]
    (by decide) rfl (by decide) (by decide) (by decide)

/-- C3: for every (channel, repo) pair that already has a subscription row,
`gh-hook` updates only the `enabled` flag: the table keeps its length (no row
is deleted, even when disabling), every row keeps its key and its six colour
fields, and only the `enabled` field of the rows matching the lowercased key
changes. -/
theorem C3_upsert_frame
    (db : DB) (t : HookTrigger) (repoArg : Str) (g4 : Option Str) (r0 : Row)
    (hpriv : OP ≤ t.privLevel ∨ t.admin = true)
    (hargs : t.args = some (repoArg, g4))
    (hfmt : '/' ∈ lower repoArg ∧ ¬ "http://".data <:+: lower repoArg
            ∧ ¬ "https://".data <:+: lower repoArg)
    (hsome : selectRow db (lower t.sender) (lower repoArg) = some r0) :
    ((configure_repo_messages db t).2).length = db.length
    ∧ ∀ i : Nat, ((configure_repo_messages db t).2)[i]? =
        (db[i]?).map (fun r =>
          { r with enabled :=
              if keyMatches (lower t.sender) (lower repoArg) r then enabledOf g4
              else r.enabled }) := by
  have heq : (configure_repo_messages db t).2
      = updateEnabled db (lower t.sender) (lower repoArg) (enabledOf g4) := by
    rw [crm_update db t repoArg g4 r0 hpriv hargs hfmt hsome]
  rw [heq]
  constructor
  · exact List.length_map ..
  · intro i
    unfold updateEnabled
    rw [List.getElem?_map]
    congr 1
    funext r
    by_cases hk : keyMatches (lower t.sender) (lower repoArg) r = true
    · rw [if_pos hk, if_pos hk]
    · rw [if_neg hk, if_neg hk]

/-- C3, witness: `.gh-hook A/B disable` on the sample table. -/
theorem C3_upsert_frame_witness :
    ((configure_repo_messages sampleDB hookTriggerDisable).2).length = sampleDB.length
    ∧ ∀ i : Nat, ((configure_repo_messages sampleDB hookTriggerDisable).2)[i]? =
        (sampleDB[i]?).map (fun r =>
          { r with enabled :=
              if keyMatches (lower hookTriggerDisable.sender) (lower "A/B".data) r
              then enabledOf (some "disable".data)
              else r.enabled }) :=
  C3_upsert_frame sampleDB hookTriggerDisable "A/B".data (some "disable".data) sampleRow
    (by decide) rfl (by decide) (by decide)

/-- C4: every `gh-hook-color` invocation by a privileged caller whose colour
argument list does not parse to exactly six integers (fewer, more, or a
non-integer token) is rejected with one of the two "You must provide exactly
6 colors" replies, and the table is left unchanged — so colours are only ever
overwritten all six at once. -/
theorem C4_bad_color_args
    (db : DB) (t : ColorTrigger) (repoArg : Str) (rest : List Str)
    (hpriv : OP ≤ t.privLevel ∨ t.admin = true)
    (hargs : t.args = some (repoArg, rest))
    (hbad : parseColors rest = none
            ∨ ∃ cs, parseColors rest = some cs ∧ cs.length ≠ 6) :
    ((configure_repo_colors db t).1 = [Msg.needSixIntegerColors]
      ∨ (configure_repo_colors db t).1 = [Msg.needSixColors])
    ∧ (configure_repo_colors db t).2 = db := by
  rcases hbad with h | ⟨cs, hcs, hlen⟩
  · rw [crc_parseFail db t repoArg rest hpriv hargs h]
    exact ⟨Or.inl rfl, rfl⟩
  · rw [crc_lengthFail db t repoArg rest cs hpriv hargs hcs hlen]
    exact ⟨Or.inr rfl, rfl⟩

/-- C4, witness: `.gh-hook-color A/B x` on the sample table. -/
theorem C4_bad_color_args_witness :
    ((configure_repo_colors sampleDB colorTriggerBadArgs).1 = [Msg.needSixIntegerColors]
      ∨ (configure_repo_colors sampleDB colorTriggerBadArgs).1 = [Msg.needSixColors])
    ∧ (configure_repo_colors sampleDB colorTriggerBadArgs).2 = sampleDB :=
  C4_bad_color_args sampleDB colorTriggerBadArgs "A/B".data ["x".data]
    (by decide) rfl (Or.inl (by decide))

/-- C5: for every colour argument list accepted by `gh-hook-color` (six
integer tokens, on a subscribed pair), each of the six ordinal colour codes
stored in the subscription row is an integer in the palette range 0..15. -/
theorem C5_colors_in_palette
    (db : DB) (t : ColorTrigger) (repoArg : Str) (rest : List Str) (cs : List Int) (r0 : Row)
    (hpriv : OP ≤ t.privLevel ∨ t.admin = true)
    (hargs : t.args = some (repoArg, rest))
    (hcs : parseColors rest = some cs)
    (hlen : cs.length = 6)
    (hsome : selectRow db (lower t.sender) (lower repoArg) = some r0) :
    ∃ r', selectRow (configure_repo_colors db t).2 (lower t.sender) (lower repoArg) = some r'
      ∧ (0 ≤ r'.repo_color ∧ r'.repo_color < 16)
      ∧ (0 ≤ r'.name_color ∧ r'.name_color < 16)
      ∧ (0 ≤ r'.branch_color ∧ r'.branch_color < 16)
      ∧ (0 ≤ r'.tag_color ∧ r'.tag_color < 16)
      ∧ (0 ≤ r'.hash_color ∧ r'.hash_color < 16)
      ∧ (0 ≤ r'.url_color ∧ r'.url_color < 16) := by
  have heq : (configure_repo_colors db t).2
      = updateColors db (lower t.sender) (lower repoArg) cs := by
    rw [crc_success db t repoArg rest cs r0 hpriv hargs hcs hlen hsome]
  have hmem : ∀ x ∈ [(setColorsRow cs r0).repo_color, (setColorsRow cs r0).name_color,
      (setColorsRow cs r0).branch_color, (setColorsRow cs r0).tag_color,
      (setColorsRow cs r0).hash_color, (setColorsRow cs r0).url_color],
      0 ≤ x ∧ x < 16 := by
    rw [setColorsRow_fields cs r0 hlen]
    exact parseColors_bounds hcs
  refine ⟨setColorsRow cs r0, ?_, ?_, ?_, ?_, ?_, ?_, ?_⟩
  · rw [heq, selectRow_updateColors, hsome]
    rfl
  · exact hmem _ (by simp)
  · exact hmem _ (by simp)
  · exact hmem _ (by simp)
  · exact hmem _ (by simp)
  · exact hmem _ (by simp)
  · exact hmem _ (by simp)

/-- C5, witness: `.gh-hook-color A/B 1 2 3 4 5 6` on the sample table. -/
theorem C5_colors_in_palette_witness :
    ∃ r', selectRow (configure_repo_colors sampleDB colorTriggerGood).2
        (lower colorTriggerGood.sender) (lower "A/B".data) = some r'
      ∧ (0 ≤ r'.repo_color ∧ r'.repo_color < 16)
      ∧ (0 ≤ r'.name_color ∧ r'.name_color < 16)
      ∧ (0 ≤ r'.branch_color ∧ r'.branch_color < 16)
      ∧ (0 ≤ r'.tag_color ∧ r'.tag_color < 16)
      ∧ (0 ≤ r'.hash_color ∧ r'.hash_color < 16)
      ∧ (0 ≤ r'.url_color ∧ r'.url_color < 16) :=
  C5_colors_in_palette sampleDB colorTriggerGood "A/B".data goodTokens [1, 2, 3, 4, 5, 6]
    sampleRow (by decide) rfl (by decide) (by decide) (by decide)

/-- C6: both subscription-store commands lowercase the channel and repository
key before every read or write (visible in their definitions, which only ever
access the store at `lower sender` / `lower repoArg`), and `gh-hook` inserts
only when no row exists for that lowercased key; consequently the invariant
"all stored keys are lowercase and no two rows share a (channel, repo) key" is
preserved by both commands, so every reachable store state has at most one row
per case-insensitive (channel, repo) pair. -/
theorem C6_store_invariant (db : DB) (t1 : HookTrigger) (t2 : ColorTrigger) (h : Inv db) :
    Inv (configure_repo_messages db t1).2 ∧ Inv (configure_repo_colors db t2).2 :=
  ⟨Inv_configure_repo_messages db t1 h, Inv_configure_repo_colors db t2 h⟩

/-- C6, witness: the invariant theorem applied to the empty table. -/
theorem C6_store_invariant_witness :
    Inv (configure_repo_messages [] hookTrigger1).2
    ∧ Inv (configure_repo_colors [] colorTriggerGood).2 :=
  C6_store_invariant [] hookTrigger1 colorTriggerGood
    ⟨fun r hr => absurd hr (List.not_mem_nil r), List.Pairwise.nil⟩

/-- C7: a caller who is neither a channel operator (privilege below OP) nor a
bot admin gets the privilege-error reply from both commands, and the
subscription table is returned untouched — the store is never read or
written. -/
theorem C7_privilege_guard
    (db1 db2 : DB) (t1 : HookTrigger) (t2 : ColorTrigger)
    (h1 : t1.privLevel < OP) (h2 : t1.admin = false)
    (h3 : t2.privLevel < OP) (h4 : t2.admin = false) :
    configure_repo_messages db1 t1 = ([Msg.privilegeError], db1)
    ∧ configure_repo_colors db2 t2 = ([Msg.privilegeError], db2) := by
  constructor
  · unfold configure_repo_messages
    rw [if_pos ⟨by omega, h2⟩]
  · unfold configure_repo_colors
    rw [if_pos ⟨by omega, h4⟩]

/-- C7, witness: unprivileged invocations of both commands on the sample
table. -/
theorem C7_privilege_guard_witness :
    configure_repo_messages sampleDB hookTriggerNoPriv = ([Msg.privilegeError], sampleDB)
    ∧ configure_repo_colors sampleDB colorTriggerNoPriv = ([Msg.privilegeError], sampleDB) :=
  C7_privilege_guard sampleDB sampleDB hookTriggerNoPriv colorTriggerNoPriv
    (by decide) rfl (by decide) rfl

/-- C8 (spec-modelled, the webhook listener is not among the sources under
verification): when a signing secret is configured, every inbound webhook
request whose signature header differs from the HMAC of the raw body under
the secret is answered with a non-200 status and triggers no chat delivery,
regardless of the payload, the event type, or the subscription table. -/
theorem C8_bad_signature_rejected
    (hmacFn : Str → Str → Str) (extractRepo : Str → Option Str) (render : Str → Str → Str)
    (s : Str) (db : DB) (req : WebhookRequest)
    (h : req.signature ≠ hmacFn s req.body) :
    (handle_webhook hmacFn extractRepo render (some s) db req).1 ≠ 200
    ∧ (handle_webhook hmacFn extractRepo render (some s) db req).2 = [] := by
  have hv : verifySignature hmacFn (some s) req = false := by
    unfold verifySignature
    rw [beq_eq_false_iff_ne]
    exact h
  unfold handle_webhook
  rw [hv, if_pos (show ¬ false = true by decide)]
  exact ⟨by decide, rfl⟩

/-- C8, witness: a concrete request whose signature header does not match the
output of the concrete HMAC function. -/
theorem C8_bad_signature_rejected_witness :
    (handle_webhook (fun _ _ => "sig".data) (fun _ => some "a/b".data)
        (fun _ _ => "text".data) (some "secret".data) sampleDB sampleRequest).1 ≠ 200
    ∧ (handle_webhook (fun _ _ => "sig".data) (fun _ => some "a/b".data)
        (fun _ _ => "text".data) (some "secret".data) sampleDB sampleRequest).2 = [] :=
  C8_bad_signature_rejected (fun _ _ => "sig".data) (fun _ => some "a/b".data)
    (fun _ _ => "text".data) "secret".data sampleDB sampleRequest (by decide)

/-- C9: for every `gh-hook` invocation that reaches the store, the stored
enabled flag equals `enabledOf` of the enable/disable argument, and for
non-empty arguments `enabledOf` is true exactly when the argument lowercases
to "enable" (it is also true when the argument is absent). -/
theorem C9_enable_argument
    (db : DB) (t : HookTrigger) (repoArg : Str) (g4 : Option Str)
    (hpriv : OP ≤ t.privLevel ∨ t.admin = true)
    (hargs : t.args = some (repoArg, g4))
    (hfmt : '/' ∈ lower repoArg ∧ ¬ "http://".data <:+: lower repoArg
            ∧ ¬ "https://".data <:+: lower repoArg) :
    (Row.enabled <$>
        selectRow (configure_repo_messages db t).2 (lower t.sender) (lower repoArg)
      = some (enabledOf g4))
    ∧ enabledOf none = true
    ∧ (∀ s : Str, s ≠ [] → (enabledOf (some s) = true ↔ lower s = "enable".data)) := by
  refine ⟨stored_enabled_eq db t repoArg g4 hpriv hargs hfmt, rfl, ?_⟩
  intro s hs
  unfold enabledOf
  simp [hs]

/-- C9, witness: `.gh-hook A/B` stores the flag true, and the argument
`Enable` (mixed case, non-empty) yields true through the characterization. -/
theorem C9_enable_argument_witness :
    (Row.enabled <$>
        selectRow (configure_repo_messages [] hookTrigger1).2
          (lower hookTrigger1.sender) (lower "A/B".data)
      = some (enabledOf none))
    ∧ enabledOf (some "Enable".data) = true :=
  ⟨(C9_enable_argument [] hookTrigger1 "A/B".data none (by decide) rfl (by decide)).1,
   ((C9_enable_argument [] hookTrigger1 "A/B".data none (by decide) rfl (by decide)).2.2
      "Enable".data (by decide)).mpr (by decide)⟩

/-- C10: every `gh-hook` invocation by a privileged caller whose repository
argument contains no '/' character, or contains the substring "http://" or
"https://", gets the repo-formatting error reply and the subscription table is
returned untouched — the store is never opened. -/
theorem C10_bad_repo_format
    (db : DB) (t : HookTrigger) (repoArg : Str) (g4 : Option Str)
    (hpriv : OP ≤ t.privLevel ∨ t.admin = true)
    (hargs : t.args = some (repoArg, g4))
    (hbad : ¬ '/' ∈ repoArg ∨ "http://".data <:+: repoArg ∨ "https://".data <:+: repoArg) :
    configure_repo_messages db t = ([Msg.repoFormatError], db) := by
  apply crm_badFormat db t repoArg g4 hpriv hargs
  rcases hbad with h | h | h
  · exact Or.inl (fun hmem => h (slash_mem_of_mem_lower hmem))
  · exact Or.inr (Or.inl (lower_substring h (by decide)))
  · exact Or.inr (Or.inr (lower_substring h (by decide)))

/-- C10, witness: `.gh-hook noslash` on the sample table. -/
theorem C10_bad_repo_format_witness :
    configure_repo_messages sampleDB hookTriggerBadRepo = ([Msg.repoFormatError], sampleDB) :=
  C10_bad_repo_format sampleDB hookTriggerBadRepo "noslash".data none
    (by decide) rfl (Or.inl (by decide))

end SopelGithub
